import Mathlib

/-!
Shallow embedding of the NFL historical database pipeline
(scripts/scrape_nfl_scores.py, scripts/add_spreads.py,
scripts/generate_data.py) and proofs of the specification's claims.

Strings are modelled with Lean `String`; Python `int` maps to `Int`,
`float` to `Rat`, `None` to `Option.none`.  Python string helpers
(`strip`, `upper`, slicing, `int(...)`) are embedded as executable
functions over the character list of the string.
-/

namespace NFL

/-! ### Python string helpers -/

/-- Numeric value of a decimal digit character. -/
def digitVal (c : Char) : Nat := c.toNat - Char.toNat '0'

/-- Python `str.strip()`: drop leading and trailing whitespace. -/
def pyStrip (s : String) : String :=
  ⟨((s.data.dropWhile Char.isWhitespace).reverse.dropWhile Char.isWhitespace).reverse⟩

/-- Python `str.upper()` (ASCII letters, which is all the inputs use). -/
def pyUpper (s : String) : String := ⟨s.data.map Char.toUpper⟩

/-- Python `s[:10]`. -/
def pyTake10 (s : String) : String := ⟨s.data.take 10⟩

/-- Python `str.startswith(pat)`, on character lists (first arg: the string). -/
def listStartsWith : List Char → List Char → Bool
  | _, [] => true
  | [], _ :: _ => false
  | c :: cs, p :: ps => c = p && listStartsWith cs ps

/-- Value of a digit list read in base 10. -/
def digitsVal (l : List Char) : Nat :=
  l.foldl (fun acc c => acc * 10 + digitVal c) 0

/-- Python `int(s)` for a decimal string: strips whitespace, allows one
sign, requires at least one digit; `none` models `ValueError`. -/
def pyToInt (s : String) : Option Int :=
  let l := (s.data.dropWhile Char.isWhitespace).reverse.dropWhile Char.isWhitespace |>.reverse
  match l with
  | '-' :: ds =>
      if ds ≠ [] ∧ ds.all Char.isDigit then some (-(digitsVal ds : Int)) else none
  | '+' :: ds =>
      if ds ≠ [] ∧ ds.all Char.isDigit then some (digitsVal ds : Int) else none
  | ds =>
      if ds ≠ [] ∧ ds.all Char.isDigit then some (digitsVal ds : Int) else none

/-! ### `parse_time` (scrape_nfl_scores.py lines 78-93)

The regex `(\d{1,2}):(\d{2})\s*(AM|PM)` is anchored at the start
(`re.match`) and ignores trailing text.  The greedy 1-or-2-digit group
never needs backtracking (a second digit cannot also be the `:`), so a
direct greedy reader is an exact embedding. -/

/-- Read one or two leading digits (greedy), returning the value and rest. -/
def readDigits12 : List Char → Option (Nat × List Char)
  | [] => none
  | c :: rest =>
      if c.isDigit then
        match rest with
        | c2 :: rest2 =>
            if c2.isDigit then some (digitVal c * 10 + digitVal c2, rest2)
            else some (digitVal c, rest)
        | [] => some (digitVal c, [])
      else none

/-- Match `AM` or `PM` at the head of the list (trailing text ignored). -/
def matchAmPm : List Char → Option String
  | 'A' :: 'M' :: _ => some "AM"
  | 'P' :: 'M' :: _ => some "PM"
  | _ => none

/-- The anchored regex match `(\d{1,2}):(\d{2})\s*(AM|PM)`. -/
def timeMatch (l : List Char) : Option (Nat × Nat × String) :=
  match readDigits12 l with
  | none => none
  | some (h, rest) =>
      match rest with
      | ':' :: d1 :: d2 :: rest2 =>
          if d1.isDigit ∧ d2.isDigit then
            let m := digitVal d1 * 10 + digitVal d2
            match matchAmPm (rest2.dropWhile Char.isWhitespace) with
            | some ap => some (h, m, ap)
            | none => none
          else none
      | _ => none

/-- `parse_time`: parse a clock string like `8:20PM` into 24-hour
`(hour, minute)`; empty or unparsable input yields `(none, none)`. -/
def parse_time (time_str : String) : Option Nat × Option Nat :=
  if time_str = "" then (none, none)
  else
    match timeMatch (pyUpper (pyStrip time_str)).data with
    | none => (none, none)
    | some (h, m, ap) =>
        let hour :=
          if ap = "PM" ∧ h ≠ 12 then h + 12
          else if ap = "AM" ∧ h = 12 then 0
          else h
        (some hour, some m)

/-- `hour is not None and hour >= n`. -/
def hourGe (h : Option Nat) (n : Nat) : Bool :=
  match h with
  | some x => n ≤ x
  | none => false

/-- `detect_primetime` (scrape_nfl_scores.py lines 96-126): classify a
game's primetime slot from day-of-week, kickoff time and season. -/
def detect_primetime (day time_str : String) (season : Int) : String :=
  if day = "" ∨ time_str = "" then ""
  else
    let d := pyStrip day
    let hour := (parse_time time_str).1
    if d = "Mon" ∧ 1970 ≤ season then
      if hourGe hour 19 then "MNF" else "MNF"
    else if d = "Thu" then
      if 2006 ≤ season ∧ hourGe hour 19 then "TNF"
      else if 2006 ≤ season then "TNF"
      else ""
    else if d = "Sun" then
      if hourGe hour 19 then
        if 1987 ≤ season then "SNF" else ""
      else ""
    else if d = "Sat" then
      if hourGe hour 19 then "Saturday Primetime" else ""
    else ""

/-! ### Table extractor (scrape_nfl_scores.py lines 152-232)

A table row as handed to the extractor by the HTML parser (an external
collaborator): each named cell is `some text` when the element exists,
`none` when `row.find` returned `None`.  `isSubHeader` models
`row.find("th", {"scope": "col"})` being truthy. -/

/-- The `game_date` cell: its `csk` attribute (`get("csk", "")`, so a
plain string with default `""`) and its visible text. -/
structure DateEl where
  csk : String
  text : String
deriving DecidableEq

structure RawRow where
  isSubHeader : Bool
  weekEl : Option String
  dayEl : Option String
  dateEl : Option DateEl
  timeEl : Option String
  winnerEl : Option String
  locationEl : Option String
  loserEl : Option String
  ptsWinEl : Option String
  ptsLoseEl : Option String
deriving DecidableEq

/-- One extracted game record (the dict built at lines 217-230). -/
structure GameRecord where
  season : Int
  week : String
  day : String
  date : String
  time : String
  homeTeam : String
  awayTeam : String
  homeScore : Int
  awayScore : Int
  scoreDiff : Int
  winner : String
  primetime : String
deriving DecidableEq

/-- `el.get_text(strip=True) if el else ""`. -/
def elText (o : Option String) : String :=
  match o with
  | some s => pyStrip s
  | none => ""

/-- Anchored match of `\d{4}-\d{2}-\d{2}` (trailing text ignored). -/
def isoDatePrefix : List Char → Bool
  | a :: b :: c :: d :: '-' :: e :: f :: '-' :: g :: h :: _ =>
      a.isDigit && b.isDigit && c.isDigit && d.isDigit &&
      e.isDigit && f.isDigit && g.isDigit && h.isDigit
  | _ => false

/-- Date resolution (lines 176-184): prefer the `csk` attribute when
present, not a `zz…` placeholder, and shaped `YYYY-MM-DD`; else the
visible text. -/
def resolveDate (dateEl : Option DateEl) : String :=
  match dateEl with
  | none => ""
  | some de =>
      if de.csk ≠ "" ∧ ¬ listStartsWith de.csk.data "zz".data ∧ isoDatePrefix de.csk.data
      then de.csk
      else pyStrip de.text

/-- Points parsing (lines 186-193): missing element or non-numeric text
defaults to 0. -/
def rowPts (el : Option String) : Int :=
  match el with
  | none => 0
  | some s => (pyToInt (pyStrip s)).getD 0

/-- The per-row body of `scrape_season` (lines 152-230): `none` models
`continue` (the row is dropped), `some` an appended game record. -/
def processRow (year : Int) (r : RawRow) : Option GameRecord :=
  if r.isSubHeader then none
  else if r.winnerEl = none ∨ r.loserEl = none then none
  else
    let week := elText r.weekEl
    let day := elText r.dayEl
    let game_time := elText r.timeEl
    let winner := elText r.winnerEl
    let loser := elText r.loserEl
    let location := elText r.locationEl
    let date := resolveDate r.dateEl
    let pts_win := rowPts r.ptsWinEl
    let pts_lose := rowPts r.ptsLoseEl
    if winner = "" ∨ listStartsWith winner.data "Week".data = true ∨
        ¬ winner.data.any Char.isAlpha then none
    else
      let home_team := if location = "@" then loser else winner
      let away_team := if location = "@" then winner else loser
      let home_score := if location = "@" then pts_lose else pts_win
      let away_score := if location = "@" then pts_win else pts_lose
      let game_winner := if pts_win = pts_lose then "Tie" else winner
      some {
        season := year
        week := week
        day := day
        date := date
        time := game_time
        homeTeam := home_team
        awayTeam := away_team
        homeScore := home_score
        awayScore := away_score
        scoreDiff := |pts_win - pts_lose|
        winner := game_winner
        primetime := detect_primetime day game_time year }

/-! ### Betting reconciler (add_spreads.py) -/

/-- `compute_spread_result` (add_spreads.py lines 102-114).  Scores are
Python ints, the spread a float (`Rat` here); the `try` around the
arithmetic can never fire for numbers, so it is not modelled. -/
def compute_spread_result (home_score away_score : Option Int) (spread : Option Rat) : String :=
  match spread, home_score, away_score with
  | some sp, some hs, some a =>
      let adjusted : Rat := (hs : Rat) + sp
      if adjusted > (a : Rat) then "Covered"
      else if adjusted < (a : Rat) then "Lost"
      else "Push"
  | _, _, _ => ""

/-- `compute_ou_result` (add_spreads.py lines 117-129). -/
def compute_ou_result (home_score away_score : Option Int) (ou : Option Rat) : String :=
  match ou, home_score, away_score with
  | some line, some hs, some a =>
      let total : Rat := (hs : Rat) + (a : Rat)
      if total > line then "Over"
      else if total < line then "Under"
      else "Push"
  | _, _, _ => ""

/-- A spreadsheet cell value: `empty` is Python `None`, the others the
int, float and str payloads the scripts put in cells. -/
inductive Cell where
  | empty
  | intVal (n : Int)
  | ratVal (q : Rat)
  | strVal (s : String)
deriving DecidableEq

/-- Python `str(v)` on a cell value (date and home cells hold strings in
the store; the numeric renderings are a fixed modelling choice and are
never relied on for a claim). -/
def pyStr : Cell → String
  | .empty => "None"
  | .intVal n => toString n
  | .ratVal q => toString q
  | .strVal s => s

/-- Python `int(v)` on a cell value under the scripts' `try/except`:
floats truncate toward zero, strings parse or fail to `none`. -/
def pyIntOfCell : Cell → Option Int
  | .empty => none
  | .intVal n => some n
  | .ratVal q => some (if 0 ≤ q then Rat.floor q else Rat.ceil q)
  | .strVal s => pyToInt s

/-- One entry of the betting lookup (`build_betting_lookup`):
`{"spread": float|None, "ou": float|None}`. -/
structure BetEntry where
  spread : Option Rat
  ou : Option Rat
deriving DecidableEq

/-- Writing a float-or-`None` into a cell. -/
def cellOfOptRat : Option Rat → Cell
  | none => .empty
  | some q => .ratVal q

/-- One row of the canonical store as the merge phase sees it: the
twelve score/identity cells and the four betting cells (columns 13-16). -/
structure XRow where
  season : Cell
  week : Cell
  day : Cell
  date : Cell
  time : Cell
  home : Cell
  away : Cell
  homeScore : Cell
  awayScore : Cell
  scoreDiff : Cell
  winner : Cell
  primetime : Cell
  spread : Cell
  ou : Cell
  spreadResult : Cell
  ouResult : Cell
deriving DecidableEq

/-- The lookup key of a row: `(str(date).strip()[:10], str(home).strip())`
(add_spreads.py lines 174-175). -/
def rowKey (r : XRow) : String × String :=
  (pyTake10 (pyStrip (pyStr r.date)), pyStrip (pyStr r.home))

/-- A row is eligible (counted in `total`) when neither its date nor its
home-team cell is `None` (lines 170-173). -/
def eligibleRow (r : XRow) : Bool :=
  ¬ (r.date = Cell.empty ∨ r.home = Cell.empty)

/-- The per-row body of the merge loop in `merge_into_excel`
(add_spreads.py lines 164-218): skip rows missing date or home team;
on a lookup hit write the four betting cells from the entry; on a miss
clear all four. -/
def mergeRow (lookup : String × String → Option BetEntry) (r : XRow) : XRow :=
  if r.date = Cell.empty ∨ r.home = Cell.empty then r
  else
    match lookup (rowKey r) with
    | some b =>
        let hs := pyIntOfCell r.homeScore
        let a := pyIntOfCell r.awayScore
        { r with
            spread := cellOfOptRat b.spread
            ou := cellOfOptRat b.ou
            spreadResult := Cell.strVal (compute_spread_result hs a b.spread)
            ouResult := Cell.strVal (compute_ou_result hs a b.ou) }
    | none =>
        { r with
            spread := Cell.empty
            ou := Cell.empty
            spreadResult := Cell.empty
            ouResult := Cell.empty }

/-- `total` after the loop: the number of eligible rows. -/
def totalCount (rows : List XRow) : Nat :=
  rows.countP (fun r => eligibleRow r)

/-- `matched` after the loop: eligible rows whose key is in the lookup
(the looked-up dict always has two keys, so any hit is truthy). -/
def matchedCount (lookup : String × String → Option BetEntry) (rows : List XRow) : Nat :=
  rows.countP (fun r => eligibleRow r && (lookup (rowKey r)).isSome)

/-- `merge_into_excel` on the row sequence: the updated rows and the
`(matched, total)` counters it reports. -/
def merge_into_excel (lookup : String × String → Option BetEntry) (rows : List XRow) :
    List XRow × Nat × Nat :=
  (rows.map (mergeRow lookup), matchedCount lookup rows, totalCount rows)

/-! ### Fetch orchestrator (scrape_nfl_scores.py lines 39-75, 290-341) -/

def MAX_RETRIES : Nat := 3

/-- What one attempt of the `curl` call yields, after the stdout is
split into body and status code: a `(status, body)` pair, or `exc` for
`subprocess.TimeoutExpired` / any other exception. -/
inductive FetchOutcome where
  | response (status : String) (html : String)
  | exc
deriving DecidableEq

/-- The retry loop of `fetch_page`: `attempt` is the (0-based) index of
the current attempt, `fuel` the attempts remaining, `f` the outcome of
each attempt.  Returns the fetched body (or `none` once retries are
exhausted) together with the sequence of sleeps, in seconds. -/
def fetchLoop (f : Nat → FetchOutcome) : Nat → Nat → Option String × List Nat
  | _, 0 => (none, [])
  | attempt, fuel + 1 =>
      match f attempt with
      | .response status html =>
          if status = "200" ∧ html ≠ "" then (some html, [])
          else if status = "429" then
            let rest := fetchLoop f (attempt + 1) fuel
            (rest.1, (attempt + 1) * 15 :: rest.2)
          else
            let rest := fetchLoop f (attempt + 1) fuel
            (rest.1, 5 :: rest.2)
      | .exc =>
          let rest := fetchLoop f (attempt + 1) fuel
          (rest.1, 5 :: rest.2)

/-- `fetch_page(url)` with its default `retries=MAX_RETRIES`. -/
def fetch_page (f : Nat → FetchOutcome) : Option String × List Nat :=
  fetchLoop f 0 MAX_RETRIES

/-- `scrape_season`'s use of the fetch result (lines 132-135): a failed
fetch returns the empty game list; otherwise the page body is parsed by
the external HTML collaborator `parse`. -/
def scrape_from_fetch (fetched : Option String) (parse : String → List GameRecord) :
    List GameRecord :=
  match fetched with
  | none => []
  | some html => parse html

/-- The season loop of `main` (lines 304-319): accumulate the games of
each season in order and record seasons that produced no games as
failed, continuing with the remaining seasons. -/
def runSeasons (scrape : Int → List GameRecord) : List Int → List GameRecord × List Int
  | [] => ([], [])
  | y :: ys =>
      let games := scrape y
      let rest := runSeasons scrape ys
      if games = [] then (rest.1, y :: rest.2)
      else (games ++ rest.1, rest.2)

/-! ### Web-asset generator (generate_data.py lines 144-170) -/

/-- One compact game dict as built by `read_excel` (keys
`s,w,d,dt,tm,h,a,hs,as,pt` and the optional betting keys). -/
structure WebGame where
  s : Int
  w : String
  d : String
  dt : String
  tm : String
  h : String
  a : String
  hs : Int
  aScore : Int
  pt : String
  sp : Option Rat
  ou : Option Rat
  sr : String
  our : String
deriving DecidableEq

/-- The deduplication key `(g["s"], g["dt"], g["h"], g["a"])`. -/
def gameKey (g : WebGame) : Int × String × String × String :=
  (g.s, g.dt, g.h, g.a)

/-- The dedup loop of `main` (lines 154-160) with its `seen` set carried
explicitly: keep a game iff its key was not seen before. -/
def dedupGo (seen : List (Int × String × String × String)) :
    List WebGame → List WebGame
  | [] => []
  | g :: rest =>
      if gameKey g ∈ seen then dedupGo seen rest
      else g :: dedupGo (gameKey g :: seen) rest

/-- Deduplicate by `(season, date, home, away)`, first occurrence wins. -/
def dedupGames (gs : List WebGame) : List WebGame := dedupGo [] gs

/-- The sort key order `(g["s"], g["dt"])`: lexicographic on season then
date string, as Python tuple comparison does (line 164). -/
def gameLE (g1 g2 : WebGame) : Prop :=
  g1.s < g2.s ∨ (g1.s = g2.s ∧ g1.dt ≤ g2.dt)

instance : DecidableRel gameLE := fun g1 g2 => by
  unfold gameLE; infer_instance

instance gameLE_total : IsTotal WebGame gameLE where
  total g1 g2 := by
    rcases lt_trichotomy g1.s g2.s with h | h | h
    · exact Or.inl (Or.inl h)
    · rcases le_total g1.dt g2.dt with h2 | h2
      · exact Or.inl (Or.inr ⟨h, h2⟩)
      · exact Or.inr (Or.inr ⟨h.symm, h2⟩)
    · exact Or.inr (Or.inl h)

instance gameLE_trans : IsTrans WebGame gameLE where
  trans g1 g2 g3 h12 h23 := by
    rcases h12 with h12 | ⟨e12, d12⟩
    · rcases h23 with h23 | ⟨e23, _⟩
      · exact Or.inl (h12.trans h23)
      · exact Or.inl (e23 ▸ h12)
    · rcases h23 with h23 | ⟨e23, d23⟩
      · exact Or.inl (e12 ▸ h23)
      · exact Or.inr ⟨e12.trans e23, d12.trans d23⟩

/-- The final serialized sequence: deduplicate, then stable-sort by
`(season, date)` (Python's stable `list.sort`, embedded as the stable
insertion sort). -/
def finalSequence (gs : List WebGame) : List WebGame :=
  List.insertionSort gameLE (dedupGames gs)

/-! ### Concrete inputs used by witnesses and counterexamples -/

/-- A 1975 road win by the winner column's team (`@` marker set). -/
def c1row : RawRow :=
  { isSubHeader := false
    weekEl := some "1"
    dayEl := some "Sun"
    dateEl := some ⟨"1975-09-21", "September 21"⟩
    timeEl := some "1:00PM"
    winnerEl := some "Dallas Cowboys"
    locationEl := some "@"
    loserEl := some "Chicago Bears"
    ptsWinEl := some "21"
    ptsLoseEl := some "17" }

/-- The record the extractor produces for `c1row`. -/
def c1rec : GameRecord :=
  { season := 1975
    week := "1"
    day := "Sun"
    date := "1975-09-21"
    time := "1:00PM"
    homeTeam := "Chicago Bears"
    awayTeam := "Dallas Cowboys"
    homeScore := 17
    awayScore := 21
    scoreDiff := 4
    winner := "Dallas Cowboys"
    primetime := "" }

/-- A tied game. -/
def c8row : RawRow :=
  { isSubHeader := false
    weekEl := some "3"
    dayEl := some "Sun"
    dateEl := none
    timeEl := some "4:00PM"
    winnerEl := some "Green Bay Packers"
    locationEl := some ""
    loserEl := some "Detroit Lions"
    ptsWinEl := some "17"
    ptsLoseEl := some "17" }

/-- The record the extractor produces for `c8row`. -/
def c8rec : GameRecord :=
  { season := 2000
    week := "3"
    day := "Sun"
    date := ""
    time := "4:00PM"
    homeTeam := "Green Bay Packers"
    awayTeam := "Detroit Lions"
    homeScore := 17
    awayScore := 17
    scoreDiff := 0
    winner := "Tie"
    primetime := "" }

/-- An accepted row whose winner-column text is literally `"Tie"` with
unequal scores: the extractor's winner field is then `"Tie"` although
the scores differ. -/
def c8cexRow : RawRow :=
  { isSubHeader := false
    weekEl := some "5"
    dayEl := none
    dateEl := none
    timeEl := none
    winnerEl := some "Tie"
    locationEl := some ""
    loserEl := some "Buffalo Bills"
    ptsWinEl := some "10"
    ptsLoseEl := some "7" }

/-- The record the extractor produces for `c8cexRow`. -/
def c8cexRec : GameRecord :=
  { season := 2000
    week := "5"
    day := ""
    date := ""
    time := ""
    homeTeam := "Tie"
    awayTeam := "Buffalo Bills"
    homeScore := 10
    awayScore := 7
    scoreDiff := 3
    winner := "Tie"
    primetime := "" }

/-- A store row with an empty date cell and pre-existing betting cells. -/
def c10row : XRow :=
  { season := Cell.intVal 1999
    week := Cell.strVal "2"
    day := Cell.strVal "Sun"
    date := Cell.empty
    time := Cell.strVal "1:00PM"
    home := Cell.strVal "Chicago Bears"
    away := Cell.strVal "Minnesota Vikings"
    homeScore := Cell.intVal 14
    awayScore := Cell.intVal 20
    scoreDiff := Cell.intVal 6
    winner := Cell.strVal "Minnesota Vikings"
    primetime := Cell.strVal ""
    spread := Cell.ratVal 3
    ou := Cell.ratVal 38
    spreadResult := Cell.strVal "Lost"
    ouResult := Cell.strVal "Under" }

end NFL

namespace NFL

/-! ### Classifier characterization lemmas -/

theorem guard_ne (day t : String) (hd : day ≠ "") (ht : t ≠ "") :
    ¬ (day = "" ∨ t = "") := by
  rintro (h | h)
  · exact hd h
  · exact ht h

theorem detect_primetime_mon (t : String) (season : Int) (ht : t ≠ "") :
    detect_primetime "Mon" t season = if 1970 ≤ season then "MNF" else "" := by
  simp only [detect_primetime]
  rw [if_neg (guard_ne _ _ (by decide) ht)]
  have h1 : pyStrip "Mon" = "Mon" := by decide
  rw [h1]
  rcases Decidable.em (1970 ≤ season) with hs | hs <;>
    rcases Decidable.em (hourGe (parse_time t).1 19 = true) with hb | hb <;>
    simp [hs, hb]

theorem detect_primetime_thu (t : String) (season : Int) (ht : t ≠ "") :
    detect_primetime "Thu" t season = if 2006 ≤ season then "TNF" else "" := by
  simp only [detect_primetime]
  rw [if_neg (guard_ne _ _ (by decide) ht)]
  have h1 : pyStrip "Thu" = "Thu" := by decide
  rw [h1]
  rcases Decidable.em (2006 ≤ season) with hs | hs <;>
    rcases Decidable.em (hourGe (parse_time t).1 19 = true) with hb | hb <;>
    simp [hs, hb]

theorem detect_primetime_sun (t : String) (season : Int) (ht : t ≠ "") :
    detect_primetime "Sun" t season =
      if hourGe (parse_time t).1 19 = true ∧ 1987 ≤ season then "SNF" else "" := by
  simp only [detect_primetime]
  rw [if_neg (guard_ne _ _ (by decide) ht)]
  have h1 : pyStrip "Sun" = "Sun" := by decide
  rw [h1]
  rcases Decidable.em (1987 ≤ season) with hs | hs <;>
    rcases Decidable.em (hourGe (parse_time t).1 19 = true) with hb | hb <;>
    simp [hs, hb]

theorem detect_primetime_sat (t : String) (season : Int) (ht : t ≠ "") :
    detect_primetime "Sat" t season =
      if hourGe (parse_time t).1 19 = true then "Saturday Primetime" else "" := by
  simp only [detect_primetime]
  rw [if_neg (guard_ne _ _ (by decide) ht)]
  have h1 : pyStrip "Sat" = "Sat" := by decide
  rw [h1]
  rcases Decidable.em (hourGe (parse_time t).1 19 = true) with hb | hb <;> simp [hb]

theorem detect_primetime_other (day t : String) (season : Int)
    (hd : day ≠ "") (ht : t ≠ "")
    (h1 : pyStrip day ≠ "Mon") (h2 : pyStrip day ≠ "Thu")
    (h3 : pyStrip day ≠ "Sun") (h4 : pyStrip day ≠ "Sat") :
    detect_primetime day t season = "" := by
  simp only [detect_primetime]
  rw [if_neg (guard_ne _ _ hd ht)]
  simp [h1, h2, h3, h4]

theorem parse_time_ne_empty (t : String) (h m : Nat)
    (hp : parse_time t = (some h, some m)) : t ≠ "" := by
  intro h0
  rw [h0] at hp
  simp [parse_time] at hp

theorem hourGe_of_parse (t : String) (h m : Nat)
    (hp : parse_time t = (some h, some m)) :
    hourGe (parse_time t).1 19 = decide (19 ≤ h) := by
  rw [hp]
  rfl

/-! ### The claims -/

/-- C2, counterexample: with an absent (empty) kickoff time the
classifier returns `""` for a 1970s Monday game, not `"MNF"` — the
`if not day or not time_str` guard aborts classification, contrary to
the claim that an absent time does not abort it. -/
theorem claim_c2_counterexample :
    detect_primetime "Mon" "" 1975 = "" ∧ detect_primetime "Mon" "" 1975 ≠ "MNF" := by
  decide

/-- C2 (amended): for every NON-EMPTY day string "Mon" and kickoff-time
string, if season ≥ 1970 then classification returns "MNF" regardless of
the parsed hour, including when the time is unparsable (an unparsable
time yields `(none, none)` from `parse_time` but does not abort
classification); an EMPTY kickoff time, however, short-circuits the
classifier to `""`. -/
theorem claim_c2_amended_monday :
    (∀ (t : String) (season : Int), 1970 ≤ season → t ≠ "" →
        detect_primetime "Mon" t season = "MNF") ∧
    parse_time "" = (none, none) ∧
    parse_time "noon" = (none, none) ∧
    detect_primetime "Mon" "noon" 1975 = "MNF" ∧
    (∀ season : Int, detect_primetime "Mon" "" season = "") := by
  refine ⟨fun t season hs ht => ?_, by decide, by decide, by decide, fun season => ?_⟩
  · rw [detect_primetime_mon t season ht, if_pos hs]
  · simp [detect_primetime]

/-- C7: the remaining primetime rules, first match winning: for every
parseable kickoff time, Thu with season ≥ 2006 gives "TNF" regardless of
hour ("" pre-2006); Sun with season ≥ 1987 and hour ≥ 19 gives "SNF"
(else ""); Sat with hour ≥ 19 gives "Saturday Primetime"; all other
days give ""; plus the spec's worked examples. -/
theorem claim_c7_primetime_rules :
    (∀ (t : String) (h m : Nat) (season : Int), parse_time t = (some h, some m) →
        (2006 ≤ season → detect_primetime "Thu" t season = "TNF") ∧
        (season < 2006 → detect_primetime "Thu" t season = "") ∧
        (1987 ≤ season → 19 ≤ h → detect_primetime "Sun" t season = "SNF") ∧
        (season < 1987 ∨ h < 19 → detect_primetime "Sun" t season = "") ∧
        (19 ≤ h → detect_primetime "Sat" t season = "Saturday Primetime") ∧
        (h < 19 → detect_primetime "Sat" t season = "")) ∧
    (∀ (day t : String) (season : Int), day ≠ "" → t ≠ "" →
        pyStrip day ≠ "Mon" → pyStrip day ≠ "Thu" → pyStrip day ≠ "Sun" →
        pyStrip day ≠ "Sat" → detect_primetime day t season = "") ∧
    detect_primetime "Thu" "8:20PM" 2010 = "TNF" ∧
    detect_primetime "Thu" "1:00PM" 2000 = "" ∧
    detect_primetime "Sun" "8:20PM" 2020 = "SNF" ∧
    detect_primetime "Sun" "1:00PM" 2020 = "" ∧
    detect_primetime "Sat" "8:00PM" 2022 = "Saturday Primetime" := by
  refine ⟨?_, detect_primetime_other, by decide, by decide, by decide, by decide, by decide⟩
  intro t h m season hp
  have ht := parse_time_ne_empty t h m hp
  have hb := hourGe_of_parse t h m hp
  refine ⟨fun hs => ?_, fun hs => ?_, fun hs hh => ?_, fun hs => ?_, fun hh => ?_,
    fun hh => ?_⟩
  · rw [detect_primetime_thu t season ht, if_pos hs]
  · rw [detect_primetime_thu t season ht, if_neg (not_le.mpr hs)]
  · rw [detect_primetime_sun t season ht,
      if_pos ⟨by rw [hb]; exact decide_eq_true hh, hs⟩]
  · rw [detect_primetime_sun t season ht, if_neg ?_]
    rintro ⟨hb2, hs2⟩
    rcases hs with hs | hs
    · exact absurd hs2 (not_le.mpr hs)
    · rw [hb] at hb2
      exact absurd (of_decide_eq_true hb2) (not_le.mpr hs)
  · rw [detect_primetime_sat t season ht,
      if_pos (by rw [hb]; exact decide_eq_true hh)]
  · rw [detect_primetime_sat t season ht, if_neg ?_]
    rw [hb]
    intro hc
    exact absurd (of_decide_eq_true hc) (not_le.mpr hh)

/-- C1: for every accepted row, if the stripped location marker is `@`
the extracted home team is the loser-column team with the loser-column
points and the away team the winner-column team with the winner-column
points; with any other marker the roles are the other way round. -/
theorem claim_c1_home_away_resolution (year : Int) (r : RawRow) (g : GameRecord)
    (hg : processRow year r = some g) :
    (elText r.locationEl = "@" →
        g.homeTeam = elText r.loserEl ∧ g.awayTeam = elText r.winnerEl ∧
        g.homeScore = rowPts r.ptsLoseEl ∧ g.awayScore = rowPts r.ptsWinEl) ∧
    (elText r.locationEl ≠ "@" →
        g.homeTeam = elText r.winnerEl ∧ g.awayTeam = elText r.loserEl ∧
        g.homeScore = rowPts r.ptsWinEl ∧ g.awayScore = rowPts r.ptsLoseEl) := by
  simp only [processRow] at hg
  split at hg
  · exact absurd hg (by simp)
  split at hg
  · exact absurd hg (by simp)
  split at hg
  · exact absurd hg (by simp)
  injection hg with hg
  subst hg
  constructor
  · intro hloc
    refine ⟨?_, ?_, ?_, ?_⟩ <;> simp [hloc]
  · intro hloc
    refine ⟨?_, ?_, ?_, ?_⟩ <;> simp [hloc]

/-- C1 witness: the theorem applied to the concrete road game `c1row`. -/
theorem claim_c1_witness :
    elText c1row.locationEl = "@" ∧
    c1rec.homeTeam = elText c1row.loserEl ∧ c1rec.awayTeam = elText c1row.winnerEl ∧
    c1rec.homeScore = rowPts c1row.ptsLoseEl ∧ c1rec.awayScore = rowPts c1row.ptsWinEl :=
  ⟨by decide,
    (claim_c1_home_away_resolution 1975 c1row c1rec (by decide)).1 (by decide)⟩

/-- C8, counterexample: the accepted row `c8cexRow`, whose winner-column
text is literally `"Tie"`, yields a record with `winner = "Tie"` and
unequal scores, refuting the claimed `winner = "Tie" ↔ homeScore =
awayScore` equivalence. -/
theorem claim_c8_counterexample :
    processRow 2000 c8cexRow = some c8cexRec ∧
    c8cexRec.winner = "Tie" ∧ ¬ c8cexRec.homeScore = c8cexRec.awayScore := by
  decide

/-- C8 (amended): for every accepted row, `scoreDiff = |homeScore −
awayScore|`; equal scores force `winner = "Tie"`, unequal scores give
the raw winner-column team name, and whenever that raw name is not
itself `"Tie"` the claimed equivalence `winner = "Tie" ↔ homeScore =
awayScore` holds. -/
theorem claim_c8_amended_invariants (year : Int) (r : RawRow) (g : GameRecord)
    (hg : processRow year r = some g) :
    g.scoreDiff = |g.homeScore - g.awayScore| ∧
    (g.homeScore = g.awayScore → g.winner = "Tie") ∧
    (g.homeScore ≠ g.awayScore → g.winner = elText r.winnerEl) ∧
    (elText r.winnerEl ≠ "Tie" → (g.winner = "Tie" ↔ g.homeScore = g.awayScore)) := by
  simp only [processRow] at hg
  split at hg
  · exact absurd hg (by simp)
  split at hg
  · exact absurd hg (by simp)
  split at hg
  · exact absurd hg (by simp)
  injection hg with hg
  subst hg
  by_cases hloc : elText r.locationEl = "@" <;>
    by_cases heq : rowPts r.ptsWinEl = rowPts r.ptsLoseEl <;>
    simp [hloc, heq, abs_sub_comm] <;>
    exact ⟨fun h2 => absurd h2.symm heq,
      fun hne => ⟨fun hb => absurd hb hne, fun h2 => absurd h2.symm heq⟩⟩

/-- C8 witness: the amended theorem applied to the concrete tie `c8row`. -/
theorem claim_c8_witness :
    c8rec.scoreDiff = |c8rec.homeScore - c8rec.awayScore| ∧ c8rec.winner = "Tie" ∧
    (elText c8row.winnerEl ≠ "Tie" →
      (c8rec.winner = "Tie" ↔ c8rec.homeScore = c8rec.awayScore)) := by
  have h := claim_c8_amended_invariants 2000 c8row c8rec (by decide)
  exact ⟨h.1, h.2.1 (by decide), h.2.2.2⟩

/-- C3: spread outcome is Covered/Lost/Push by the sign of
`homeScore + spread − awayScore`, the over/under outcome Over/Under/Push
by the sign of `homeScore + awayScore − line`, and both are empty as
soon as the line or either score is unknown. -/
theorem claim_c3_spread_ou_outcomes :
    (∀ (hs a : Int) (sp : Rat),
        ((hs : Rat) + sp > (a : Rat) →
          compute_spread_result (some hs) (some a) (some sp) = "Covered") ∧
        ((hs : Rat) + sp < (a : Rat) →
          compute_spread_result (some hs) (some a) (some sp) = "Lost") ∧
        ((hs : Rat) + sp = (a : Rat) →
          compute_spread_result (some hs) (some a) (some sp) = "Push")) ∧
    (∀ (hs a : Int) (t : Rat),
        ((hs : Rat) + (a : Rat) > t →
          compute_ou_result (some hs) (some a) (some t) = "Over") ∧
        ((hs : Rat) + (a : Rat) < t →
          compute_ou_result (some hs) (some a) (some t) = "Under") ∧
        ((hs : Rat) + (a : Rat) = t →
          compute_ou_result (some hs) (some a) (some t) = "Push")) ∧
    (∀ (ho ao : Option Int) (so : Option Rat), so = none ∨ ho = none ∨ ao = none →
        compute_spread_result ho ao so = "" ∧ compute_ou_result ho ao so = "") := by
  refine ⟨fun hs a sp => ⟨fun h => ?_, fun h => ?_, fun h => ?_⟩,
          fun hs a t => ⟨fun h => ?_, fun h => ?_, fun h => ?_⟩,
          fun ho ao so h => ?_⟩
  · simp only [compute_spread_result]
    rw [if_pos h]
  · simp only [compute_spread_result]
    rw [if_neg (lt_asymm h), if_pos h]
  · simp only [compute_spread_result]
    rw [if_neg (h ▸ lt_irrefl _), if_neg (h ▸ lt_irrefl _)]
  · simp only [compute_ou_result]
    rw [if_pos h]
  · simp only [compute_ou_result]
    rw [if_neg (lt_asymm h), if_pos h]
  · simp only [compute_ou_result]
    rw [if_neg (h ▸ lt_irrefl _), if_neg (h ▸ lt_irrefl _)]
  · rcases h with h | h | h <;> subst h
    · exact ⟨rfl, rfl⟩
    · exact ⟨by cases so <;> rfl, by cases so <;> rfl⟩
    · exact ⟨by cases so <;> cases ho <;> rfl, by cases so <;> cases ho <;> rfl⟩

/-- The merge loop reads only the date, home-team and score cells, and
never writes them. -/
theorem mergeRow_preserves_reads (lookup : String × String → Option BetEntry) (r : XRow) :
    (mergeRow lookup r).date = r.date ∧ (mergeRow lookup r).home = r.home ∧
    (mergeRow lookup r).homeScore = r.homeScore ∧
    (mergeRow lookup r).awayScore = r.awayScore := by
  unfold mergeRow
  split
  · exact ⟨rfl, rfl, rfl, rfl⟩
  · split <;> exact ⟨rfl, rfl, rfl, rfl⟩

/-- The merge result on a skipped row: the row unchanged. -/
theorem mergeRow_eq_skip (lookup : String × String → Option BetEntry) (r : XRow)
    (hskip : r.date = Cell.empty ∨ r.home = Cell.empty) :
    mergeRow lookup r = r := by
  rw [mergeRow, if_pos hskip]

/-- The merge result on an eligible row whose key misses the lookup. -/
theorem mergeRow_eq_miss (lookup : String × String → Option BetEntry) (r : XRow)
    (hskip : ¬ (r.date = Cell.empty ∨ r.home = Cell.empty))
    (hlk : lookup (rowKey r) = none) :
    mergeRow lookup r =
      { r with spread := Cell.empty, ou := Cell.empty,
               spreadResult := Cell.empty, ouResult := Cell.empty } := by
  rw [mergeRow, if_neg hskip, hlk]

/-- The merge result on an eligible row whose key hits the lookup. -/
theorem mergeRow_eq_hit (lookup : String × String → Option BetEntry) (r : XRow)
    (b : BetEntry) (hskip : ¬ (r.date = Cell.empty ∨ r.home = Cell.empty))
    (hlk : lookup (rowKey r) = some b) :
    mergeRow lookup r =
      { r with
          spread := cellOfOptRat b.spread
          ou := cellOfOptRat b.ou
          spreadResult := Cell.strVal (compute_spread_result
            (pyIntOfCell r.homeScore) (pyIntOfCell r.awayScore) b.spread)
          ouResult := Cell.strVal (compute_ou_result
            (pyIntOfCell r.homeScore) (pyIntOfCell r.awayScore) b.ou) } := by
  rw [mergeRow, if_neg hskip, hlk]

/-- One merge pass is idempotent row by row. -/
theorem mergeRow_idem (lookup : String × String → Option BetEntry) (r : XRow) :
    mergeRow lookup (mergeRow lookup r) = mergeRow lookup r := by
  by_cases hskip : r.date = Cell.empty ∨ r.home = Cell.empty
  · have hinner := mergeRow_eq_skip lookup r hskip
    rw [hinner]
    exact hinner
  · rcases hlk : lookup (rowKey r) with _ | b
    · have h1 := mergeRow_eq_miss lookup r hskip hlk
      rw [h1]
      exact mergeRow_eq_miss lookup _ hskip hlk
    · have h1 := mergeRow_eq_hit lookup r b hskip hlk
      rw [h1]
      exact mergeRow_eq_hit lookup _ b hskip hlk

/-- C4: re-running the merge against the same betting lookup leaves
every row of the store unchanged — the second pass reproduces the first
pass's rows exactly (in particular all four betting fields). -/
theorem claim_c4_merge_idempotent (lookup : String × String → Option BetEntry)
    (rows : List XRow) :
    (merge_into_excel lookup (merge_into_excel lookup rows).1).1 =
      (merge_into_excel lookup rows).1 := by
  simp only [merge_into_excel, List.map_map]
  induction rows with
  | nil => rfl
  | cons r rest ih =>
      simp only [List.map_cons, List.cons.injEq] at ih ⊢
      exact ⟨mergeRow_idem lookup r, ih⟩

/-- C6: the merge writes only the four betting cells — the twelve
score/identity cells come through unchanged — and on an eligible row
whose key misses the lookup all four betting cells are cleared. -/
theorem claim_c6_merge_frame (lookup : String × String → Option BetEntry) (r : XRow) :
    (mergeRow lookup r).season = r.season ∧
    (mergeRow lookup r).week = r.week ∧
    (mergeRow lookup r).day = r.day ∧
    (mergeRow lookup r).date = r.date ∧
    (mergeRow lookup r).time = r.time ∧
    (mergeRow lookup r).home = r.home ∧
    (mergeRow lookup r).away = r.away ∧
    (mergeRow lookup r).homeScore = r.homeScore ∧
    (mergeRow lookup r).awayScore = r.awayScore ∧
    (mergeRow lookup r).scoreDiff = r.scoreDiff ∧
    (mergeRow lookup r).winner = r.winner ∧
    (mergeRow lookup r).primetime = r.primetime ∧
    (eligibleRow r = true → lookup (rowKey r) = none →
      (mergeRow lookup r).spread = Cell.empty ∧
      (mergeRow lookup r).ou = Cell.empty ∧
      (mergeRow lookup r).spreadResult = Cell.empty ∧
      (mergeRow lookup r).ouResult = Cell.empty) := by
  by_cases hskip : r.date = Cell.empty ∨ r.home = Cell.empty
  · rw [mergeRow, if_pos hskip]
    refine ⟨rfl, rfl, rfl, rfl, rfl, rfl, rfl, rfl, rfl, rfl, rfl, rfl, fun hel _ => ?_⟩
    simp only [eligibleRow, decide_eq_true_eq] at hel
    exact absurd hskip hel
  · rcases hlk : lookup (rowKey r) with _ | b
    · rw [mergeRow, if_neg hskip, hlk]
      exact ⟨rfl, rfl, rfl, rfl, rfl, rfl, rfl, rfl, rfl, rfl, rfl, rfl,
        fun _ _ => ⟨rfl, rfl, rfl, rfl⟩⟩
    · rw [mergeRow, if_neg hskip, hlk]
      refine ⟨rfl, rfl, rfl, rfl, rfl, rfl, rfl, rfl, rfl, rfl, rfl, rfl,
        fun _ hnone => ?_⟩
      exact absurd hnone (by simp)

/-- C10: a store row whose date or home-team cell is `None` is skipped
whole: it is returned unchanged (pre-existing betting cells and all),
is not eligible, and contributes to neither counter. -/
theorem claim_c10_skip_empty (lookup : String × String → Option BetEntry) (r : XRow)
    (h : r.date = Cell.empty ∨ r.home = Cell.empty) :
    mergeRow lookup r = r ∧ eligibleRow r = false ∧
    (∀ rows : List XRow, totalCount (r :: rows) = totalCount rows ∧
        matchedCount lookup (r :: rows) = matchedCount lookup rows) := by
  have hel : eligibleRow r = false := by
    simp only [eligibleRow, decide_eq_false_iff_not, not_not]
    exact h
  refine ⟨by rw [mergeRow, if_pos h], hel, fun rows => ⟨?_, ?_⟩⟩
  · simp [totalCount, List.countP_cons, hel]
  · simp [matchedCount, List.countP_cons, hel]

/-- C10 witness: the theorem applied to the concrete row `c10row` whose
date cell is empty, with an empty lookup. -/
theorem claim_c10_witness :
    mergeRow (fun _ => none) c10row = c10row ∧ eligibleRow c10row = false ∧
    totalCount [c10row] = totalCount [] ∧
    matchedCount (fun _ => none) [c10row] = matchedCount (fun _ => none) [] := by
  have h := claim_c10_skip_empty (fun _ => none) c10row (Or.inl rfl)
  exact ⟨h.1, h.2.1, (h.2.2 []).1, (h.2.2 []).2⟩

/-! ### Fetch retry lemmas -/

/-- The retry loop only inspects the outcomes of the attempts it makes. -/
theorem fetchLoop_congr (f g : Nat → FetchOutcome) :
    ∀ (fuel attempt : Nat), (∀ i, attempt ≤ i → i < attempt + fuel → f i = g i) →
      fetchLoop f attempt fuel = fetchLoop g attempt fuel
  | 0, _, _ => rfl
  | fuel + 1, attempt, h => by
      have hfa : f attempt = g attempt := h attempt le_rfl (by omega)
      have ih := fetchLoop_congr f g fuel (attempt + 1)
        (fun i h1 h2 => h i (by omega) (by omega))
      simp only [fetchLoop, hfa, ih]

/-- A 429 at (0-based) attempt `attempt` sleeps `15 × (attempt + 1)`
seconds and retries. -/
theorem fetchLoop_429 (f : Nat → FetchOutcome) (attempt fuel : Nat) (htm : String)
    (hf : f attempt = .response "429" htm) :
    fetchLoop f attempt (fuel + 1) =
      ((fetchLoop f (attempt + 1) fuel).1,
        (attempt + 1) * 15 :: (fetchLoop f (attempt + 1) fuel).2) := by
  simp only [fetchLoop, hf]
  rw [if_neg (by rintro ⟨h2, -⟩; exact absurd h2 (by decide)), if_pos trivial]

/-- Any other non-200 status sleeps a fixed 5 seconds and retries. -/
theorem fetchLoop_other (f : Nat → FetchOutcome) (attempt fuel : Nat) (s htm : String)
    (hf : f attempt = .response s htm) (h200 : s ≠ "200") (h429 : s ≠ "429") :
    fetchLoop f attempt (fuel + 1) =
      ((fetchLoop f (attempt + 1) fuel).1, 5 :: (fetchLoop f (attempt + 1) fuel).2) := by
  simp only [fetchLoop, hf]
  rw [if_neg (by rintro ⟨h2, -⟩; exact h200 h2), if_neg h429]

/-- A transport error or timeout sleeps a fixed 5 seconds and retries. -/
theorem fetchLoop_exc (f : Nat → FetchOutcome) (attempt fuel : Nat)
    (hf : f attempt = .exc) :
    fetchLoop f attempt (fuel + 1) =
      ((fetchLoop f (attempt + 1) fuel).1, 5 :: (fetchLoop f (attempt + 1) fuel).2) := by
  simp only [fetchLoop, hf]

/-- C5: the fetcher makes at most `MAX_RETRIES = 3` attempts (its result
depends only on the first three outcomes); a 429 at 1-based attempt `n`
(0-based `attempt`) waits `15 × n`, so three consecutive 429s wait
15, 30, 45 seconds and yield `none`; any other non-200 status or a
transport error waits a fixed 5 seconds; a failed fetch makes
`scrape_season` return no games, and the season loop records such a
season as failed and proceeds with the remaining seasons. -/
theorem claim_c5_fetch_retry_backoff :
    (∀ f g : Nat → FetchOutcome, (∀ i, i < MAX_RETRIES → f i = g i) →
        fetch_page f = fetch_page g) ∧
    (∀ (f : Nat → FetchOutcome) (h0 h1 h2 : String),
        f 0 = .response "429" h0 → f 1 = .response "429" h1 →
        f 2 = .response "429" h2 →
        fetch_page f = (none, [15, 30, 45])) ∧
    (∀ (f : Nat → FetchOutcome) (attempt fuel : Nat) (htm : String),
        f attempt = .response "429" htm →
        fetchLoop f attempt (fuel + 1) =
          ((fetchLoop f (attempt + 1) fuel).1,
            (attempt + 1) * 15 :: (fetchLoop f (attempt + 1) fuel).2)) ∧
    (∀ (f : Nat → FetchOutcome) (attempt fuel : Nat) (s htm : String),
        f attempt = .response s htm → s ≠ "200" → s ≠ "429" →
        fetchLoop f attempt (fuel + 1) =
          ((fetchLoop f (attempt + 1) fuel).1,
            5 :: (fetchLoop f (attempt + 1) fuel).2)) ∧
    (∀ (f : Nat → FetchOutcome) (attempt fuel : Nat),
        f attempt = .exc →
        fetchLoop f attempt (fuel + 1) =
          ((fetchLoop f (attempt + 1) fuel).1,
            5 :: (fetchLoop f (attempt + 1) fuel).2)) ∧
    (∀ parse : String → List GameRecord, scrape_from_fetch none parse = []) ∧
    (∀ (scrape : Int → List GameRecord) (y : Int) (ys : List Int), scrape y = [] →
        runSeasons scrape (y :: ys) =
          ((runSeasons scrape ys).1, y :: (runSeasons scrape ys).2)) := by
  refine ⟨?_, ?_, fetchLoop_429, fetchLoop_other, fetchLoop_exc, fun _ => rfl, ?_⟩
  · intro f g hag
    exact fetchLoop_congr f g MAX_RETRIES 0
      (fun i _ h2 => hag i (Nat.zero_add MAX_RETRIES ▸ h2))
  · intro f h0 h1 h2 hf0 hf1 hf2
    have e2 : fetchLoop f 2 1 = (none, [45]) := by
      rw [show (1 : Nat) = 0 + 1 from rfl, fetchLoop_429 f 2 0 h2 hf2]
      simp [fetchLoop]
    have e1 : fetchLoop f 1 2 = (none, [30, 45]) := by
      rw [show (2 : Nat) = 1 + 1 from rfl, fetchLoop_429 f 1 1 h1 hf1]
      simp [e2]
    show fetchLoop f 0 MAX_RETRIES = (none, [15, 30, 45])
    rw [show MAX_RETRIES = 2 + 1 from rfl, fetchLoop_429 f 0 2 h0 hf0]
    simp [e1]
  · intro scrape y ys hempty
    simp [runSeasons, hempty]

/-! ### Deduplication lemmas -/

theorem dedupGo_key_not_seen (seen : List (Int × String × String × String))
    (gs : List WebGame) (g : WebGame) (hg : g ∈ dedupGo seen gs) :
    gameKey g ∉ seen := by
  induction gs generalizing seen with
  | nil => simp [dedupGo] at hg
  | cons x rest ih =>
      rw [dedupGo] at hg
      by_cases hx : gameKey x ∈ seen
      · rw [if_pos hx] at hg
        exact ih seen hg
      · rw [if_neg hx] at hg
        rcases List.mem_cons.mp hg with hg | hg
        · subst hg
          exact hx
        · intro hs
          exact ih (gameKey x :: seen) hg (List.mem_cons_of_mem _ hs)

theorem dedupGo_first (seen : List (Int × String × String × String))
    (gs : List WebGame) (g : WebGame) (hg : g ∈ dedupGo seen gs) :
    ∃ pre post, gs = pre ++ g :: post ∧ ∀ x ∈ pre, gameKey x ≠ gameKey g := by
  induction gs generalizing seen with
  | nil => simp [dedupGo] at hg
  | cons x rest ih =>
      rw [dedupGo] at hg
      by_cases hx : gameKey x ∈ seen
      · rw [if_pos hx] at hg
        obtain ⟨pre, post, heq, hpre⟩ := ih seen hg
        have hkg : gameKey g ∉ seen := dedupGo_key_not_seen seen rest g hg
        refine ⟨x :: pre, post, by rw [heq]; rfl, ?_⟩
        intro z hz
        rcases List.mem_cons.mp hz with hz | hz
        · subst hz
          intro hc
          exact hkg (hc ▸ hx)
        · exact hpre z hz
      · rw [if_neg hx] at hg
        rcases List.mem_cons.mp hg with hg | hg
        · subst hg
          exact ⟨[], rest, rfl, by simp⟩
        · obtain ⟨pre, post, heq, hpre⟩ := ih (gameKey x :: seen) hg
          have hkg := dedupGo_key_not_seen _ rest g hg
          refine ⟨x :: pre, post, by rw [heq]; rfl, ?_⟩
          intro z hz
          rcases List.mem_cons.mp hz with hz | hz
          · subst hz
            intro hc
            exact hkg (by rw [← hc]; exact List.mem_cons_self _ _)
          · exact hpre z hz

theorem dedupGo_key_inj (seen : List (Int × String × String × String))
    (gs : List WebGame) :
    ∀ g1 ∈ dedupGo seen gs, ∀ g2 ∈ dedupGo seen gs,
      gameKey g1 = gameKey g2 → g1 = g2 := by
  induction gs generalizing seen with
  | nil =>
      intro g1 h1
      simp [dedupGo] at h1
  | cons x rest ih =>
      intro g1 h1 g2 h2 hk
      rw [dedupGo] at h1 h2
      by_cases hx : gameKey x ∈ seen
      · rw [if_pos hx] at h1 h2
        exact ih seen g1 h1 g2 h2 hk
      · rw [if_neg hx] at h1 h2
        rcases List.mem_cons.mp h1 with h1 | h1 <;>
          rcases List.mem_cons.mp h2 with h2 | h2
        · rw [h1, h2]
        · subst h1
          have hns := dedupGo_key_not_seen _ rest g2 h2
          exact absurd (by rw [← hk]; exact List.mem_cons_self _ _) hns
        · subst h2
          have hns := dedupGo_key_not_seen _ rest g1 h1
          exact absurd (by rw [hk]; exact List.mem_cons_self _ _) hns
        · exact ih (gameKey x :: seen) g1 h1 g2 h2 hk

theorem dedupGo_covers (seen : List (Int × String × String × String))
    (gs : List WebGame) :
    ∀ g ∈ gs, gameKey g ∈ seen ∨ ∃ g2 ∈ dedupGo seen gs, gameKey g2 = gameKey g := by
  induction gs generalizing seen with
  | nil => simp
  | cons x rest ih =>
      intro g hg
      rw [dedupGo]
      by_cases hx : gameKey x ∈ seen
      · rw [if_pos hx]
        rcases List.mem_cons.mp hg with hg | hg
        · subst hg
          exact Or.inl hx
        · exact ih seen g hg
      · rw [if_neg hx]
        rcases List.mem_cons.mp hg with hg | hg
        · exact Or.inr ⟨x, List.mem_cons_self _ _, by rw [hg]⟩
        · rcases ih (gameKey x :: seen) g hg with h | ⟨g2, hg2, hkey⟩
          · rcases List.mem_cons.mp h with h | h
            · exact Or.inr ⟨x, List.mem_cons_self _ _, h.symm⟩
            · exact Or.inl h
          · exact Or.inr ⟨g2, List.mem_cons_of_mem _ hg2, hkey⟩

/-- C9: the final serialized sequence is sorted by `(season, date)`;
records sharing the key `(season, date, home, away)` collapse to a
single record; each kept record is the FIRST input record bearing its
key (first-seen values retained); and every input key is represented. -/
theorem claim_c9_dedup_sort (gs : List WebGame) :
    List.Sorted gameLE (finalSequence gs) ∧
    (∀ g1 ∈ finalSequence gs, ∀ g2 ∈ finalSequence gs,
        gameKey g1 = gameKey g2 → g1 = g2) ∧
    (∀ g ∈ finalSequence gs, ∃ pre post, gs = pre ++ g :: post ∧
        ∀ x ∈ pre, gameKey x ≠ gameKey g) ∧
    (∀ g ∈ gs, ∃ g2 ∈ finalSequence gs, gameKey g2 = gameKey g) := by
  have hperm : List.Perm (finalSequence gs) (dedupGames gs) :=
    List.perm_insertionSort gameLE (dedupGames gs)
  refine ⟨List.sorted_insertionSort gameLE (dedupGames gs), ?_, ?_, ?_⟩
  · intro g1 h1 g2 h2 hk
    exact dedupGo_key_inj [] gs g1 (hperm.subset h1) g2 (hperm.subset h2) hk
  · intro g hg
    exact dedupGo_first [] gs g (hperm.subset hg)
  · intro g hg
    rcases (dedupGo_covers [] gs g hg).resolve_left (by simp) with ⟨g2, hg2, hk⟩
    exact ⟨g2, hperm.mem_iff.mpr hg2, hk⟩

end NFL
